import Mathlib

/-!
Verification of the core of `benchmark-agentic-tooling`.

The development shallowly embeds the algorithmic core of the repository:

* the natural-language instruction parser `parseFlowInstructions`
  (src/agent/mcp-server.js),
* the execution validator `validateFlowExecution` (src/agent/mcp-server.js),
* the semantic locator `locateElement` and the per-element action
  dispatcher `executeAction` (the locator module shared by both
  executors),
* the agent-guided orchestrator `executeFlow` (src/agent/executor.js),
  embedded here as `agentExecuteFlow`,
* the deterministic orchestrator `executeFlow` of the plan-walking
  executor variant, embedded here as `detExecuteFlow`, and
* the network-settlement primitive `waitForNetworkSettlement`
  (identical in both executor variants).

Modelling conventions:

* JavaScript strings are Lean `String`s (ASCII contents in all inputs of
  interest); absent (`undefined`) string properties are `Option.none`,
  and JS truthiness of a string value is `strTruthy` (absent or empty is
  falsy).
* Regular expressions used by the source are transcribed as explicit
  character-list matchers with the same alternation order, greediness
  and case handling as the JS engine exhibits on the patterns involved.
* Page interactions are pure: an executed step yields the ordered list
  of page-level `Effect`s the source would perform.  Wall-clock readings
  (`Date.now()`) only feed log output and the recorded
  `relativeTimestampMs`, which no claim depends on; timestamps are
  abstracted to `0` and durations to `0`.
* The page is a `Page` structure: a list of `Element`s with the
  accessible attributes the locator inspects, plus an abstract
  structural-selector resolver and the snapshot/context strings the
  orchestrator reads.  `isEnabled` is modelled as determinable (the
  indeterminate-status fallback path of `executeAction` is not
  exercised by any claim).
* The while-loops of the source are embedded as fuelled recursions whose
  fuel is initialised so that fuel exhaustion coincides exactly with the
  source's own loop bound (50 iterations for the agent loop, the
  15000 ms ceiling for the settlement poll).
-/

/-! ## Basic string machinery -/

/-- ASCII approximation of the JS regex class `\s`. -/
def isJsWs (c : Char) : Bool :=
  c = ' ' || c = '\t' || c = '\n' || c = '\r' || c = '\x0b' || c = '\x0c'

/-- Split a character list into its maximal whitespace prefix and the rest. -/
def spanWs (l : List Char) : List Char × List Char :=
  (l.takeWhile isJsWs, l.dropWhile isJsWs)

/-- Case-insensitive literal match: if `pat` (ASCII) is a prefix of `l`
up to case, return the remainder. -/
def ciLit : List Char → List Char → Option (List Char)
  | [], l => some l
  | _ :: _, [] => none
  | p :: ps, c :: cs => if p.toLower = c.toLower then ciLit ps cs else none

/-- Case-insensitive substring test (the effect of testing
`new RegExp(pat, 'i')` for a metacharacter-free `pat`). -/
def ciSubstr (pat : List Char) : List Char → Bool
  | [] => (ciLit pat []).isSome
  | c :: cs => (ciLit pat (c :: cs)).isSome || ciSubstr pat cs

/-- Case-sensitive substring test (JS `String.prototype.includes`). -/
def isSubstr (pat : List Char) : List Char → Bool
  | [] => pat.isEmpty
  | c :: cs => pat.isPrefixOf (c :: cs) || isSubstr pat cs

/-- Number of occurrences of `pat` in `l` (all start positions). -/
def countSubstr (pat : List Char) : List Char → Nat
  | [] => 0
  | c :: cs => (if pat.isPrefixOf (c :: cs) then 1 else 0) + countSubstr pat cs

/-- Scan a character list left to right and return the first position at
which the matcher succeeds (leftmost-match regex search). -/
def scanFirst (f : List Char → Option α) : List Char → Option α
  | [] => f []
  | c :: cs =>
    match f (c :: cs) with
    | some x => some x
    | none => scanFirst f cs

/-- Boolean variant of `scanFirst`. -/
def scanBool (f : List Char → Bool) : List Char → Bool
  | [] => f []
  | c :: cs => f (c :: cs) || scanBool f cs

/-- JS truthiness of an optional string property: `undefined` and the
empty string are falsy. -/
def strTruthy : Option String → Bool
  | none => false
  | some s => !(s == "")

/-- JS `parseInt(s, 10)`: skip leading whitespace, optional sign, then a
maximal run of decimal digits; `none` models `NaN`. -/
def jsParseInt (s : String) : Option Int :=
  let l := s.data.dropWhile isJsWs
  let signed : Bool × List Char :=
    match l with
    | '-' :: rest => (true, rest)
    | '+' :: rest => (false, rest)
    | _ => (false, l)
  let ds := signed.2.takeWhile Char.isDigit
  if ds.isEmpty then none
  else
    let n : Nat := ds.foldl (fun a c => a * 10 + (c.toNat - '0'.toNat)) 0
    some (if signed.1 then -(n : Int) else (n : Int))

/-- JS `String.prototype.trim` (whitespace stripped from both ends),
written over the character list so that it reduces in the kernel. -/
def jsTrim (s : String) : String :=
  String.mk ((s.data.dropWhile isJsWs).reverse.dropWhile isJsWs).reverse

/-- JS `String.prototype.startsWith`, written over the character list so
that it reduces in the kernel. -/
def strStartsWith (s pre : String) : Bool :=
  pre.data.isPrefixOf s.data

/-! ## Data model -/

/-- A decision `{action, target, value}` as produced by a decision
function, and equally the shape of one step of an explicit plan. -/
structure Decision where
  action : String
  target : Option String := none
  value : Option String := none
deriving Repr, DecidableEq

/-- One entry of a parsed plan, as pushed by `parseFlowInstructions`
(`{type, target?, value?, description}`). -/
structure PlanAction where
  type : String
  target : Option String := none
  value : Option String := none
  description : String
deriving Repr, DecidableEq

/-- One history entry as pushed by either orchestrator.  The
deterministic executor records no `url` property (`none` here); the
agent executor records the page URL read at decision time. -/
structure HistoryEntry where
  step : Nat
  url : Option String := none
  action : String
  target : Option String := none
  value : Option String := none
  timestamp : Nat := 0
deriving Repr, DecidableEq

/-- Result shape `{success, steps, duration, history}` of a completed
flow. -/
structure FlowResult where
  success : Bool
  steps : Nat
  duration : Nat
  history : List HistoryEntry
deriving Repr, DecidableEq

/-- Result `{success, errors}` of `validateFlowExecution`. -/
structure ValidationResult where
  success : Bool
  errors : List String
deriving Repr, DecidableEq

/-- A page element carrying the accessible attributes the locator
strategies inspect.  An absent attribute is the empty string. -/
structure Element where
  role : String := ""
  name : String := ""
  text : String := ""
  label : String := ""
  placeholder : String := ""
  enabled : Bool := true
deriving Repr, DecidableEq

/-- The page model: its elements in document order, an abstract resolver
for literal structural selectors, and the opaque snapshot/context data
the orchestrator reads. -/
structure Page where
  elements : List Element
  selectorMatches : String → List Element := fun _ => []
  snapshot : String := ""
  url : String := ""
  title : String := ""

/-! ## Instruction parser (`parseFlowInstructions`, src/agent/mcp-server.js)

The source splits the flow text with
`flowInstruction.split(/\s+(?:then|and then|next|after that|,)\s+/i)`
and classifies each trimmed, nonempty step through a fixed chain of
regex rules, first match wins. -/

/-- Alternatives of the separator group, in the regex's alternation
order. -/
def sepAlts : List (List Char) :=
  ["then".data, "and then".data, "next".data, "after that".data, ",".data]

/-- Try the separator alternatives in order at the head of `l`; each must
be followed by at least one whitespace character (the trailing `\s+` of
the separator regex).  An alternative whose trailing whitespace is
missing is abandoned and the next one tried, as the JS engine
backtracks. -/
def trySepAlts : List (List Char) → List Char → Option (List Char)
  | [], _ => none
  | a :: as, l =>
    match ciLit a l with
    | some r =>
      let p := spanWs r
      if p.1.isEmpty then trySepAlts as l else some p.2
    | none => trySepAlts as l

/-- Match the full separator regex at the head of `l`: at least one
whitespace character, one alternative, at least one whitespace
character.  Returns the remainder after the (greedy) match.  Taking the
maximal leading whitespace run is exact here because no alternative
starts with whitespace. -/
def matchSep (l : List Char) : Option (List Char) :=
  let p := spanWs l
  if p.1.isEmpty then none else trySepAlts sepAlts p.2

/-- Left-to-right splitting scan of JS `String.prototype.split` on the
separator regex.  `fuel` bounds the recursion; every separator match
consumes at least one character, so `fuel = length + 1` suffices. -/
def splitSepGo : Nat → List Char → List Char → List (List Char)
  | 0, l, acc => [acc.reverse ++ l]
  | fuel + 1, l, acc =>
    match l with
    | [] => [acc.reverse]
    | c :: rest =>
      match matchSep (c :: rest) with
      | some r => acc.reverse :: splitSepGo fuel r []
      | none => splitSepGo fuel rest (c :: acc)

/-- The separator split of the flow text. -/
def splitSeparators (s : String) : List String :=
  (splitSepGo (s.length + 1) s.data []).map String.mk

/-- Word character of the JS regex class `\w` (for `\b` boundaries). -/
def isWordChar (c : Char) : Bool :=
  c.isAlphanum || c = '_'

/-- Rule 1 matcher at one position: `(?:navigate|go)\s+to\s+([^\s,]+)`,
returning the captured token. -/
def matchNavAt (l : List Char) : Option (List Char) :=
  let afterVerb :=
    match ciLit "navigate".data l with
    | some r => some r
    | none => ciLit "go".data l
  match afterVerb with
  | none => none
  | some r =>
    let p1 := spanWs r
    if p1.1.isEmpty then none else
    match ciLit "to".data p1.2 with
    | none => none
    | some r2 =>
      let p2 := spanWs r2
      if p2.1.isEmpty then none else
      let tok := p2.2.takeWhile (fun c => !(isJsWs c) && c ≠ ',')
      if tok.isEmpty then none else some tok

/-- Anchored test for `^https?:\/\/` (case-insensitive). -/
def startsWithHttp (s : String) : Bool :=
  match ciLit "http".data s.data with
  | none => false
  | some r =>
    match r with
    | [] => false
    | c :: rest =>
      if c.toLower = 's' then (ciLit "://".data rest).isSome
      else (ciLit "://".data (c :: rest)).isSome

/-- Rule 2a matcher at one position:
`back\s+to\s+(?:home|homepage|previous\s+page)`.  The `home` alternative
subsumes `homepage` because nothing follows the group. -/
def matchBackToAt (l : List Char) : Bool :=
  match ciLit "back".data l with
  | none => false
  | some r =>
    let p1 := spanWs r
    if p1.1.isEmpty then false else
    match ciLit "to".data p1.2 with
    | none => false
    | some r2 =>
      let p2 := spanWs r2
      if p2.1.isEmpty then false else
      (ciLit "home".data p2.2).isSome ||
        (match ciLit "previous".data p2.2 with
         | none => false
         | some r3 =>
           let p3 := spanWs r3
           !p3.1.isEmpty && (ciLit "page".data p3.2).isSome)

/-- Rule 2b matcher at one position (after a `\b` boundary):
`go\s+back\b`. -/
def matchGoBackAt (l : List Char) : Bool :=
  match ciLit "go".data l with
  | none => false
  | some r =>
    let p := spanWs r
    if p.1.isEmpty then false else
    match ciLit "back".data p.2 with
    | none => false
    | some r2 =>
      match r2 with
      | [] => true
      | c :: _ => !(isWordChar c)

/-- Scan for `\bgo\s+back\b`, tracking the previous character for the
leading word boundary. -/
def scanGoBack : List Char → Option Char → Bool
  | [], _ => false
  | c :: cs, prev =>
    ((match prev with
      | none => true
      | some p => !(isWordChar p)) && matchGoBackAt (c :: cs)) ||
      scanGoBack cs (some c)

/-- Attempt an optional literal-plus-`\s+` group (`(?:on\s+)?` or
`(?:the\s+)?`): consume it only when both the literal and at least one
whitespace character match. -/
def tryOptLit (pat : List Char) (l : List Char) : List Char :=
  match ciLit pat l with
  | none => l
  | some r =>
    let p := spanWs r
    if p.1.isEmpty then l else p.2

/-- Rule 3 matcher at one position:
`click\s+(?:on\s+)?(?:the\s+)?(.+)`, returning the capture (up to the
end of the line, as `.` does not cross `\n`). -/
def matchClickAt (l : List Char) : Option (List Char) :=
  match ciLit "click".data l with
  | none => none
  | some r =>
    let p := spanWs r
    if p.1.isEmpty then none else
    let r2 := tryOptLit "on".data p.2
    let r3 := tryOptLit "the".data r2
    let cap := r3.takeWhile (fun c => c ≠ '\n')
    if cap.isEmpty then none else some cap

/-- Rule 4 matcher at one position: `first\s+product`. -/
def matchFirstProductAt (l : List Char) : Bool :=
  match ciLit "first".data l with
  | none => false
  | some r =>
    let p := spanWs r
    !p.1.isEmpty && (ciLit "product".data p.2).isSome

/-- The boundary `\s+(?:with|in)\s+(.+)` of the fill rule, tried after
each lazy extension of the target capture; returns the value capture. -/
def fillBoundary (l : List Char) : Option (List Char) :=
  let p1 := spanWs l
  if p1.1.isEmpty then none else
  let tryKw : List Char → Option (List Char) := fun kw =>
    match ciLit kw p1.2 with
    | none => none
    | some r2 =>
      let p2 := spanWs r2
      if p2.1.isEmpty then none else
      let v := p2.2.takeWhile (fun c => c ≠ '\n')
      if v.isEmpty then none else some v
  match tryKw "with".data with
  | some v => some v
  | none => tryKw "in".data

/-- Lazy expansion of the `(.+?)` target capture of the fill rule: grow
the target one character at a time (never across `\n`) until the
boundary matches. -/
def fillScanTarget (acc : List Char) : List Char → Option (List Char × List Char)
  | [] => none
  | c :: cs =>
    if c = '\n' then none else
    match fillBoundary cs with
    | some v => some (acc ++ [c], v)
    | none => fillScanTarget (acc ++ [c]) cs

/-- Rule 5 matcher at one position:
`(?:fill|enter)\s+(.+?)\s+(?:with|in)\s+(.+)`, returning the two
captures. -/
def matchFillAt (l : List Char) : Option (List Char × List Char) :=
  let afterVerb :=
    match ciLit "fill".data l with
    | some r => some r
    | none => ciLit "enter".data l
  match afterVerb with
  | none => none
  | some r =>
    let p := spanWs r
    if p.1.isEmpty then none else
    fillScanTarget [] p.2

/-- Classify one trimmed step through the source's rule chain (first
match wins). -/
def classifyStep (t : String) : PlanAction :=
  match scanFirst matchNavAt t.data with
  | some tok =>
    let tokS := String.mk tok
    let tgt := if startsWithHttp tokS then tokS else "https://" ++ tokS
    { type := "navigate", target := some tgt, description := t }
  | none =>
  if scanBool matchBackToAt t.data || scanGoBack t.data none then
    { type := "back", description := t }
  else
  match scanFirst matchClickAt t.data with
  | some cap =>
    { type := "click", target := some (jsTrim (String.mk cap)), description := t }
  | none =>
  if scanBool matchFirstProductAt t.data then
    { type := "click", target := some "first product", description := t }
  else
  match scanFirst matchFillAt t.data with
  | some tv =>
    { type := "fill", target := some (jsTrim (String.mk tv.1)),
      value := some (jsTrim (String.mk tv.2)), description := t }
  | none =>
  if ciSubstr "wait".data t.data then
    { type := "wait", description := t }
  else
    { type := "unknown", description := t }

/-- The per-step loop of `parseFlowInstructions`: trim each raw step,
discard empties, push exactly one action for the rest. -/
def parseSteps : List String → List PlanAction
  | [] => []
  | st :: rest =>
    let t := jsTrim st
    if t = "" then parseSteps rest else classifyStep t :: parseSteps rest

/-- `parseFlowInstructions` (src/agent/mcp-server.js): separator split
followed by per-step classification. -/
def parseFlowInstructions (s : String) : List PlanAction :=
  parseSteps (splitSeparators s)

/-! ## Execution validator (`validateFlowExecution`, src/agent/mcp-server.js) -/

/-- URL normalization of the validator's navigate rule: lowercase, then
strip a single trailing slash (`.replace(/\/$/, '')`). -/
def normalizeUrl (s : String) : String :=
  let low := s.data.map Char.toLower
  String.mk (if low.getLast? = some '/' then low.dropLast else low)

/-- Target normalization of the validator's click/fill rule: lowercase,
then keep only ASCII letters and digits
(`.replace(/[^a-z0-9]/g, '')` after `toLowerCase`). -/
def normalizeTarget (s : String) : String :=
  String.mk ((s.data.map Char.toLower).filter (fun c => c.isLower || c.isDigit))

/-- JS `executed.value || executed.url || ''`. -/
def truthyOrElse (a b : Option String) : String :=
  if strTruthy a then a.getD "" else if strTruthy b then b.getD "" else ""

/-- The history-entry match rule of the validator for one planned
action.  The source dereferences `plannedAction.target` unconditionally
in the navigate/click/fill branches; the parser always supplies it
there, and an absent target is modelled as `""`. -/
def matchesPlanned (pa : PlanAction) (e : HistoryEntry) : Bool :=
  if e.action ≠ pa.type then false
  else if pa.type = "navigate" then
    isSubstr (normalizeUrl (pa.target.getD "")).data
      (normalizeUrl (truthyOrElse e.value e.url)).data
  else if pa.type = "back" then e.action = "back"
  else if pa.type = "click" || pa.type = "fill" then
    isSubstr (normalizeTarget (pa.target.getD "")).data
      (normalizeTarget (e.target.getD "")).data
  else if pa.type = "wait" then true
  else false

/-- The error-accumulation loop of `validateFlowExecution`. -/
def valErrors (history : List HistoryEntry) : List PlanAction → List String
  | [] => []
  | pa :: rest =>
    (if pa.type = "unknown" then
      ["Unrecognized instruction: " ++ pa.description]
    else if history.any (matchesPlanned pa) then []
    else ["Expected action not performed: " ++ pa.description]) ++
      valErrors history rest

/-- `validateFlowExecution(plan, history)`. -/
def validateFlowExecution (plan : List PlanAction) (history : List HistoryEntry) :
    ValidationResult :=
  let errors := valErrors history plan
  { success := errors.isEmpty, errors := errors }

/-! ## Semantic locator (`locateElement`, the locator module shared by
both executors) -/

/-- Strategy 0: a literal structural selector when the cleaned target
starts with `#`, `.` or `[`. -/
def stratCss (p : Page) (t : String) : Option Element :=
  if strStartsWith t "#" || strStartsWith t "." || strStartsWith t "[" then
    (p.selectorMatches t).head?
  else none

/-- Role-based strategy: first element with the given accessible role
whose accessible name matches the target case-insensitively
(`getByRole(role, { name: new RegExp(cleanTarget, 'i') })`). -/
def stratByRole (role : String) (p : Page) (t : String) : Option Element :=
  (p.elements.filter (fun e => e.role == role && ciSubstr t.data e.name.data)).head?

/-- Strategy 3: first element whose label matches case-insensitively. -/
def stratByLabel (p : Page) (t : String) : Option Element :=
  (p.elements.filter (fun e => ciSubstr t.data e.label.data)).head?

/-- Strategy 4: first element whose placeholder matches
case-insensitively. -/
def stratByPlaceholder (p : Page) (t : String) : Option Element :=
  (p.elements.filter (fun e => ciSubstr t.data e.placeholder.data)).head?

/-- Strategy 5: first element whose visible text equals the target
exactly (`getByText(cleanTarget, { exact: true })`). -/
def stratByExactText (p : Page) (t : String) : Option Element :=
  (p.elements.filter (fun e => e.text == t)).head?

/-- Strategy 6: first element whose visible text contains the target
case-insensitively. -/
def stratByPartialText (p : Page) (t : String) : Option Element :=
  (p.elements.filter (fun e => ciSubstr t.data e.text.data)).head?

/-- The strategy fallback chain in the source's fixed order: the first
strategy producing an element wins. -/
def locateFound (p : Page) (t : String) : Option Element :=
  match stratCss p t with
  | some e => some e
  | none =>
  match stratByRole "button" p t with
  | some e => some e
  | none =>
  match stratByRole "link" p t with
  | some e => some e
  | none =>
  match stratByLabel p t with
  | some e => some e
  | none =>
  match stratByPlaceholder p t with
  | some e => some e
  | none =>
  match stratByExactText p t with
  | some e => some e
  | none =>
  match stratByPartialText p t with
  | some e => some e
  | none => stratByRole "heading" p t

/-- The diagnostic message thrown when every strategy fails, verbatim
from the source. -/
def locateErrorMessage (target : String) : String :=
  "Could not locate element: \"" ++ target ++ "\"\n" ++
  "Tried multiple strategies:\n" ++
  "  - Button with name matching \"" ++ target ++ "\"\n" ++
  "  - Link with name matching \"" ++ target ++ "\"\n" ++
  "  - Input with label matching \"" ++ target ++ "\"\n" ++
  "  - Input with placeholder matching \"" ++ target ++ "\"\n" ++
  "  - Element with text matching \"" ++ target ++ "\"\n" ++
  "  - Heading with text matching \"" ++ target ++ "\"\n" ++
  "\nPlease verify the element exists and is visible on the page."

/-- `locateElement(page, target)`: trim the target, walk the strategy
chain, and fail with the diagnostic message when it is exhausted. -/
def locateElement (p : Page) (target : String) : Except String Element :=
  match locateFound p (jsTrim target) with
  | some e => Except.ok e
  | none => Except.error (locateErrorMessage target)

/-- Number of strategy bullet lines (`"  - "`) enumerated in a locator
diagnostic message. -/
def strategyLineCount (msg : String) : Nat :=
  countSubstr "  - ".data msg.data

/-! ## Step execution (`executeStep` of both executor variants, and
`executeAction` of the shared locator module) -/

/-- A page-level effect an executed step performs, in order. -/
inductive Effect where
  | goto (url : String)
  | waitTimeout (ms : Int)
  | waitForLoaded (timeout : Nat)
  | networkSettle
  | goBack
  | goForward
  | reload
  | interact (el : Element) (verb : String) (value : Option String)
deriving Repr, DecidableEq

/-- `executeAction(locator, action, value)` of the shared locator
module: dispatch the named interaction on a resolved element.  `fill`
requires a truthy value and an enabled element; `select` requires a
truthy value. -/
def executeAction (el : Element) (action : String) (value : Option String) :
    Except String (List Effect) :=
  if action = "click" then Except.ok [Effect.interact el "click" none]
  else if action = "fill" then
    if !strTruthy value then Except.error "Fill action requires a value"
    else if !el.enabled then
      Except.error "Element found but is disabled (not editable)"
    else Except.ok [Effect.interact el "fill" value]
  else if action = "clear" then Except.ok [Effect.interact el "clear" none]
  else if action = "check" then Except.ok [Effect.interact el "check" none]
  else if action = "uncheck" then Except.ok [Effect.interact el "uncheck" none]
  else if action = "select" then
    if !strTruthy value then Except.error "Select action requires a value"
    else Except.ok [Effect.interact el "select" value]
  else if action = "hover" then Except.ok [Effect.interact el "hover" none]
  else Except.error ("Unknown action: " ++ action)

/-- The navigate branch, identical in both executor variants: require a
truthy URL value, `goto`, a fixed 3000 ms settle pause, then the bounded
content-readiness poll. -/
def navigateStep (value : Option String) : Except String (List Effect) :=
  if !strTruthy value then Except.error "Navigate action requires a URL value"
  else Except.ok [Effect.goto (value.getD ""), Effect.waitTimeout 3000,
    Effect.waitForLoaded 10000]

/-- The locate-then-interact branch shared by both executor variants:
require a truthy target, resolve it with `locateElement`, then dispatch
`executeAction`. -/
def targetedStep (p : Page) (d : Decision) : Except String (List Effect) :=
  if !strTruthy d.target then
    Except.error (d.action ++ " action requires a target element")
  else
    match locateElement p (d.target.getD "") with
    | Except.error e => Except.error e
    | Except.ok el => executeAction el d.action d.value

/-- The wait-duration computation of the deterministic executor:
`parseInt(value, 10) || 2000` (absent, unparsable and zero values all
fall back to 2000). -/
def detWaitMs (value : Option String) : Int :=
  match value with
  | none => 2000
  | some s =>
    match jsParseInt s with
    | none => 2000
    | some n => if n = 0 then 2000 else n

/-- `executeStep` of the deterministic plan-walking executor variant:
navigate, wait (with network settlement on `value == "network"`), back,
forward, reload, and the seven targeted interactions. -/
def detExecuteStep (p : Page) (d : Decision) : Except String (List Effect) :=
  if d.action = "navigate" then navigateStep d.value
  else if d.action = "wait" then
    if d.value = some "network" then Except.ok [Effect.networkSettle]
    else Except.ok [Effect.waitTimeout (detWaitMs d.value)]
  else if d.action = "back" then
    Except.ok [Effect.goBack, Effect.waitTimeout 500]
  else if d.action = "forward" then
    Except.ok [Effect.goForward, Effect.waitTimeout 500]
  else if d.action = "reload" then
    Except.ok [Effect.reload, Effect.waitTimeout 1000]
  else if d.action = "click" || d.action = "fill" || d.action = "hover" ||
      d.action = "clear" || d.action = "check" || d.action = "uncheck" ||
      d.action = "select" then
    targetedStep p d
  else Except.error ("Unknown action: " ++ d.action)

/-- `executeStep` of the agent-guided executor (src/agent/executor.js):
navigate, a fixed 2000 ms pause for every wait, and six targeted
interactions (no hover, back, forward or reload cases). -/
def agentExecuteStep (p : Page) (d : Decision) : Except String (List Effect) :=
  if d.action = "navigate" then navigateStep d.value
  else if d.action = "wait" then Except.ok [Effect.waitTimeout 2000]
  else if d.action = "click" || d.action = "fill" || d.action = "clear" ||
      d.action = "check" || d.action = "uncheck" || d.action = "select" then
    targetedStep p d
  else Except.error ("Unknown action: " ++ d.action)

/-! ## Flow orchestrators -/

/-- The history entry pushed by the agent-guided orchestrator after a
successful step: the value is masked to `'***'` whenever any truthy
value was supplied, regardless of action
(`value: decision.value ? '***' : undefined`). -/
def agentEntry (sc : Nat) (url : String) (d : Decision) : HistoryEntry :=
  { step := sc, url := some url, action := d.action, target := d.target,
    value := if strTruthy d.value then some "***" else none, timestamp := 0 }

/-- A decision function: `(snapshot, flowDescription, history) ->
Decision`. -/
def DecideFn : Type :=
  String → String → List HistoryEntry → Decision

/-- The agent-guided while-loop: `while (stepCount < maxSteps)` with
`stepCount++` at the top of each iteration, the `done` check after the
decision, then step execution and the history push.  `fuel` is
`maxSteps - stepCount`, so fuel exhaustion is exactly the loop condition
turning false. -/
def agentFlowLoop (p : Page) (flow : String) (decide : DecideFn) :
    Nat → Nat → List HistoryEntry → Except String (Nat × List HistoryEntry)
  | 0, sc, h => Except.ok (sc, h)
  | fuel + 1, sc, h =>
    let sc' := sc + 1
    let d := decide p.snapshot flow h
    if d.action = "done" then Except.ok (sc', h)
    else
      match agentExecuteStep p d with
      | Except.error e => Except.error e
      | Except.ok _ =>
        agentFlowLoop p flow decide fuel sc' (h ++ [agentEntry sc' p.url d])

/-- `executeFlow(page, flowDescription, agentDecide)`
(src/agent/executor.js): run the bounded decision loop; after it, any
`stepCount >= maxSteps` — including a `done` received on the 50th
iteration — raises the infinite-loop error; otherwise return the result
with `steps := stepCount`. -/
def agentExecuteFlow (p : Page) (flow : String) (decide : DecideFn) :
    Except String FlowResult :=
  match agentFlowLoop p flow decide 50 0 [] with
  | Except.error e => Except.error e
  | Except.ok (sc, h) =>
    if 50 ≤ sc then
      Except.error "Flow exceeded maximum steps (50). Possible infinite loop."
    else
      Except.ok { success := true, steps := sc, duration := 0, history := h }

/-- The history entry pushed by the deterministic orchestrator after a
successful step: the value is masked exactly when the action is `fill`
(`value: step.action === 'fill' ? '***' : step.value`); no `url`
property is recorded. -/
def detEntry (idx : Nat) (st : Decision) : HistoryEntry :=
  { step := idx + 1, url := none, action := st.action, target := st.target,
    value := if st.action = "fill" then some "***" else st.value,
    timestamp := 0 }

/-- The deterministic for-loop over the plan, carrying the running step
counter. -/
def detFlowLoop (p : Page) : List Decision → Nat → List HistoryEntry →
    Except String (Nat × List HistoryEntry)
  | [], sc, h => Except.ok (sc, h)
  | st :: rest, sc, h =>
    match detExecuteStep p st with
    | Except.error e => Except.error e
    | Except.ok _ => detFlowLoop p rest (sc + 1) (h ++ [detEntry sc st])

/-- `executeFlow(page, executionPlan)` of the deterministic executor
variant: walk the plan in order, append one history entry per
successful step, rethrow the first failure. -/
def detExecuteFlow (p : Page) (plan : List Decision) : Except String FlowResult :=
  match detFlowLoop p plan 0 [] with
  | Except.error e => Except.error e
  | Except.ok (sc, h) =>
    Except.ok { success := true, steps := sc, duration := 0, history := h }

/-! ## Network-settlement primitive (`waitForNetworkSettlement`,
identical in both executor variants)

The primitive is embedded as the ordered trace of page-level
subscription and poll operations it performs, so that the subscription
state after any exit path is computed from the order of operations, not
assumed.  Time is discretised at the poll granularity: poll iteration
`k` begins at `now = 100·k` ms after the start, `events` lists the
instants of observed request/response activity (each such instant
becomes the new `lastActivity`), and `failAt = some k` makes the
`waitForTimeout` call of iteration `k` throw. -/

/-- A page-level listener/poll operation. -/
inductive PageOp where
  | subOn (ev : String)
  | subOff (ev : String)
  | pollWait
deriving Repr, DecidableEq

/-- `lastActivity` as read at time `now`: the latest observed activity
instant not after `now`, initially the start instant 0. -/
def lastActivityAt (events : List Nat) (now : Nat) : Nat :=
  events.foldl (fun acc t => if t ≤ now && acc < t then t else acc) 0

/-- The settlement poll loop
`while (Date.now() - lastActivity < 2000 && Date.now() - startTime < 15000)`.
`fuel` is initialised to 151 so that its exhaustion coincides with the
15000 ms ceiling (`now = 100·k` reaches 15000 at `k = 150`, where the
loop condition is false anyway). -/
def settleGo (events : List Nat) (failAt : Option Nat) :
    Nat → Nat → List PageOp → Except (String × List PageOp) (List PageOp)
  | 0, _, acc => Except.ok acc
  | fuel + 1, k, acc =>
    let now := 100 * k
    if now - lastActivityAt events now < 2000 && now < 15000 then
      if failAt = some k then
        Except.error ("waitForTimeout failed", acc)
      else settleGo events failAt fuel (k + 1) (acc ++ [PageOp.pollWait])
    else Except.ok acc

/-- `waitForNetworkSettlement(page)`: subscribe both listeners, poll,
and unsubscribe both — the `page.off` calls are placed after the loop,
so they are reached only on a normal exit; an exception inside the loop
propagates first.  Returns the outcome together with the full ordered
operation trace. -/
def waitForNetworkSettlement (events : List Nat) (failAt : Option Nat) :
    Except String Unit × List PageOp :=
  let pre := [PageOp.subOn "request", PageOp.subOn "response"]
  match settleGo events failAt 151 0 [] with
  | Except.ok polls =>
    (Except.ok (),
      pre ++ polls ++ [PageOp.subOff "request", PageOp.subOff "response"])
  | Except.error ep => (Except.error ep.1, pre ++ ep.2)

/-- The set of listeners still subscribed after a trace of page
operations. -/
def listenersAfter (ops : List PageOp) : List String :=
  ops.foldl (fun acc op =>
    match op with
    | PageOp.subOn ev => acc ++ [ev]
    | PageOp.subOff ev => acc.erase ev
    | PageOp.pollWait => acc) []

/-! ## Specification artifacts and concrete fixtures used by the
theorems -/

/-- The history the deterministic orchestrator produces for a plan when
every step succeeds, indexed from step counter `k`: one entry per plan
step in order, masking the value exactly for `fill`. -/
def detHistoryFrom (k : Nat) : List Decision → List HistoryEntry
  | [] => []
  | st :: rest => detEntry k st :: detHistoryFrom (k + 1) rest

/-- A decision function returning the sequence
`[wait, click("X"), done]`: the history grows by exactly one entry per
executed step, so its length indexes the sequence. -/
def decideWCD : DecideFn := fun _ _ h =>
  if h.length = 0 then { action := "wait" }
  else if h.length = 1 then { action := "click", target := some "X" }
  else { action := "done" }

/-- A decision function that waits for 49 iterations and returns `done`
on the 50th (its history then holds 49 entries). -/
def decide49 : DecideFn := fun _ _ h =>
  if 49 ≤ h.length then { action := "done" } else { action := "wait" }

/-- A decision function returning
`[navigate("https://example.com"), done]`. -/
def decideNav : DecideFn := fun _ _ h =>
  if h.length = 0 then { action := "navigate", value := some "https://example.com" }
  else { action := "done" }

/-- A page with a single button named `X`. -/
def pageX : Page :=
  { elements := [{ role := "button", name := "X" }] }

/-- A page with a link named `Submit form` (first in document order) and
a button named `Submit`. -/
def pageSubmit : Page :=
  { elements := [{ role := "link", name := "Submit form" },
                 { role := "button", name := "Submit" }] }

/-- A page with no elements at all. -/
def pageEmpty : Page :=
  { elements := [] }

/-- A two-step deterministic plan: a fill with a secret value, then a
navigate with a URL value. -/
def planFillNav : List Decision :=
  [{ action := "fill", target := some "X", value := some "secret" },
   { action := "navigate", value := some "https://e.com" }]

/-- The flow result the deterministic executor produces for
`planFillNav` on `pageX`: the fill value masked, the navigate value
recorded literally. -/
def resultFillNav : FlowResult :=
  { success := true, steps := 2, duration := 0,
    history := [{ step := 1, url := none, action := "fill", target := some "X",
                  value := some "***", timestamp := 0 },
                { step := 2, url := none, action := "navigate", target := none,
                  value := some "https://e.com", timestamp := 0 }] }

/-- The flow result the agent executor produces for `decideNav` on the
empty page: the navigate value masked although its action is not
`fill`. -/
def resultNavMasked : FlowResult :=
  { success := true, steps := 2, duration := 0,
    history := [{ step := 1, url := some "", action := "navigate", target := none,
                  value := some "***", timestamp := 0 }] }

/-! ## Helper lemmas -/

/-- The per-step loop of the parser is the trim/discard/classify
pipeline. -/
theorem parseSteps_eq (l : List String) :
    parseSteps l = ((l.map jsTrim).filter (fun t => t != "")).map classifyStep := by
  induction l with
  | nil => rfl
  | cons st rest ih =>
    by_cases h : jsTrim st = ""
    · simp [parseSteps, List.filter_cons, h, ih]
    · simp [parseSteps, List.filter_cons, h, ih]

/-- An unknown planned action contributes its error to the validator's
error list, whatever the history. -/
theorem valErrors_unknown_mem (history : List HistoryEntry) (pa : PlanAction)
    (hty : pa.type = "unknown") :
    ∀ plan : List PlanAction, pa ∈ plan →
      ("Unrecognized instruction: " ++ pa.description) ∈ valErrors history plan := by
  intro plan
  induction plan with
  | nil => intro hmem; cases hmem
  | cons q rest ih =>
    intro hmem
    rcases List.mem_cons.mp hmem with h | h
    · subst h
      simp [valErrors, hty]
    · exact List.mem_append_right _ (ih h)

/-- `List.any` is invariant under permutation of the list. -/
theorem any_eq_of_perm (f : α → Bool) {l l' : List α} (h : l.Perm l') :
    l.any f = l'.any f := by
  induction h with
  | nil => rfl
  | cons x _ ih => simp [List.any_cons, ih]
  | swap x y l =>
    cases hx : f x <;> cases hy : f y <;> simp [List.any_cons, hx, hy]
  | trans _ _ ih₁ ih₂ => exact ih₁.trans ih₂

/-- The validator's error list only reads the history through
existential matching, hence is invariant under history permutation. -/
theorem valErrors_perm (plan : List PlanAction) {h h' : List HistoryEntry}
    (hp : h.Perm h') : valErrors h plan = valErrors h' plan := by
  induction plan with
  | nil => rfl
  | cons q rest ih =>
    simp [valErrors, any_eq_of_perm (matchesPlanned q) hp, ih]

/-- First element of a filtered list, given a member satisfying the
predicate. -/
theorem filter_head_spec (l : List α) (pr : α → Bool) (h : ∃ x ∈ l, pr x = true) :
    ∃ y, (l.filter pr).head? = some y ∧ pr y = true := by
  induction l with
  | nil => rcases h with ⟨x, hx, _⟩; cases hx
  | cons a rest ih =>
    by_cases ha : pr a = true
    · exact ⟨a, by simp [List.filter_cons, ha], ha⟩
    · rcases h with ⟨x, hx, hpx⟩
      rcases List.mem_cons.mp hx with rfl | hx'
      · exact absurd hpx ha
      · have hr := ih ⟨x, hx', hpx⟩
        rw [List.filter_cons, if_neg ha]
        exact hr

/-- A normal exit of the settlement poll loop only adds poll operations
to the trace. -/
theorem settleGo_ok_ops (events : List Nat) (failAt : Option Nat) :
    ∀ (fuel k : Nat) (acc : List PageOp), (∀ op ∈ acc, op = PageOp.pollWait) →
      ∀ l, settleGo events failAt fuel k acc = Except.ok l →
        ∀ op ∈ l, op = PageOp.pollWait := by
  intro fuel
  induction fuel with
  | zero =>
    intro k acc hacc l hl
    rw [settleGo] at hl
    simp at hl
    exact hl ▸ hacc
  | succ n ih =>
    intro k acc hacc l hl
    rw [settleGo] at hl
    by_cases hc : (100 * k - lastActivityAt events (100 * k) < 2000 && 100 * k < 15000) = true
    · rw [if_pos hc] at hl
      by_cases hf : failAt = some k
      · rw [if_pos hf] at hl; cases hl
      · rw [if_neg hf] at hl
        refine ih (k + 1) _ ?_ l hl
        intro op hop
        rcases List.mem_append.mp hop with h | h
        · exact hacc op h
        · simpa using h
    · rw [if_neg hc] at hl
      cases hl
      exact hacc

/-- An exceptional exit of the settlement poll loop also carries a trace
of poll operations only. -/
theorem settleGo_error_ops (events : List Nat) (failAt : Option Nat) :
    ∀ (fuel k : Nat) (acc : List PageOp), (∀ op ∈ acc, op = PageOp.pollWait) →
      ∀ e l, settleGo events failAt fuel k acc = Except.error (e, l) →
        ∀ op ∈ l, op = PageOp.pollWait := by
  intro fuel
  induction fuel with
  | zero =>
    intro k acc hacc e l hl
    rw [settleGo] at hl
    simp at hl
  | succ n ih =>
    intro k acc hacc e l hl
    rw [settleGo] at hl
    by_cases hc : (100 * k - lastActivityAt events (100 * k) < 2000 && 100 * k < 15000) = true
    · rw [if_pos hc] at hl
      by_cases hf : failAt = some k
      · rw [if_pos hf] at hl
        cases hl
        exact hacc
      · rw [if_neg hf] at hl
        refine ih (k + 1) _ ?_ e l hl
        intro op hop
        rcases List.mem_append.mp hop with h | h
        · exact hacc op h
        · simpa using h
    · rw [if_neg hc] at hl
      cases hl

/-- Poll operations do not change the subscribed-listener state. -/
theorem listenersFold_polls (l : List PageOp) (h : ∀ op ∈ l, op = PageOp.pollWait) :
    ∀ acc : List String,
      l.foldl (fun acc op =>
        match op with
        | PageOp.subOn ev => acc ++ [ev]
        | PageOp.subOff ev => acc.erase ev
        | PageOp.pollWait => acc) acc = acc := by
  induction l with
  | nil => intro acc; rfl
  | cons a rest ih =>
    intro acc
    have ha : a = PageOp.pollWait := h a (List.mem_cons_self a rest)
    subst ha
    exact ih (fun op hop => h op (List.mem_cons_of_mem _ hop)) acc

/-! ## Claim theorems -/

/-- C2 counterexample: the two modes do not share wait semantics — for
the decision `{action: wait, value: "network"}` the deterministic
executor invokes the network-settlement primitive while the agent
executor performs a fixed 2000 ms pause, and `hover` executes in the
deterministic executor but is rejected as an unknown action by the agent
executor. -/
theorem C2_counterexample :
    detExecuteStep pageEmpty { action := "wait", value := some "network" } =
      Except.ok [Effect.networkSettle] ∧
    agentExecuteStep pageEmpty { action := "wait", value := some "network" } =
      Except.ok [Effect.waitTimeout 2000] ∧
    ([Effect.waitTimeout 2000] : List Effect) ≠ [Effect.networkSettle] ∧
    agentExecuteStep pageX { action := "hover", target := some "X" } =
      Except.error "Unknown action: hover" ∧
    detExecuteStep pageX { action := "hover", target := some "X" } =
      Except.ok [Effect.interact { role := "button", name := "X" } "hover" none] := by
  exact ⟨rfl, rfl, by decide, rfl, rfl⟩

/-- C2 (amended): the per-action semantics of one step coincide between
agent-guided mode and deterministic plan-walking mode exactly on the
shared action set `navigate`, `click`, `fill`, `clear`, `check`,
`uncheck`, `select`; the deterministic executor additionally handles
`wait` with network settlement and value parsing, `back`, `forward`,
`reload` and `hover`, while the agent executor turns every `wait` into a
fixed 2000 ms pause and rejects `back`, `forward`, `reload` and `hover`
as unknown actions. -/
theorem C2_step_semantics (p : Page) (d : Decision)
    (h : d.action ∈ (["navigate", "click", "fill", "clear", "check",
      "uncheck", "select"] : List String)) :
    agentExecuteStep p d = detExecuteStep p d := by
  simp only [List.mem_cons, List.not_mem_nil, or_false] at h
  rcases h with h | h | h | h | h | h | h <;>
    simp [agentExecuteStep, detExecuteStep, h]

/-- C2 witness: the shared-semantics theorem applied to a concrete click
decision. -/
theorem C2_step_semantics_witness :
    agentExecuteStep pageX { action := "click", target := some "X" } =
      detExecuteStep pageX { action := "click", target := some "X" } :=
  C2_step_semantics pageX { action := "click", target := some "X" } (by simp)

/-- C4 counterexample: when the poll wait throws on its very first
iteration, the primitive propagates the exception with both listeners
still subscribed — the unsubscribe calls are never reached. -/
theorem C4_counterexample :
    (waitForNetworkSettlement [] (some 0)).1 = Except.error "waitForTimeout failed" ∧
    listenersAfter (waitForNetworkSettlement [] (some 0)).2 = ["request", "response"] ∧
    (["request", "response"] : List String) ≠ [] := by
  exact ⟨rfl, rfl, by decide⟩

/-- C4 (amended): both listeners are unsubscribed on the two normal exit
paths of the network-settlement primitive (settlement and the 15000 ms
ceiling), but an exception raised during the poll wait propagates before
the unsubscribe calls, so both listeners remain subscribed on that
path. -/
theorem C4_listener_cleanup (events : List Nat) (failAt : Option Nat) :
    ((waitForNetworkSettlement events failAt).1.isOk = true →
      listenersAfter (waitForNetworkSettlement events failAt).2 = []) ∧
    (∀ msg, (waitForNetworkSettlement events failAt).1 = Except.error msg →
      listenersAfter (waitForNetworkSettlement events failAt).2 =
        ["request", "response"]) := by
  cases hs : settleGo events failAt 151 0 [] with
  | ok polls =>
    have hp : ∀ op ∈ polls, op = PageOp.pollWait :=
      settleGo_ok_ops events failAt 151 0 [] (by intro op hop; cases hop) polls hs
    constructor
    · intro _
      simp only [waitForNetworkSettlement, hs, listenersAfter]
      rw [List.foldl_append, List.foldl_append]
      rw [listenersFold_polls polls hp]
      rfl
    · intro msg hmsg
      simp only [waitForNetworkSettlement, hs] at hmsg
      cases hmsg
  | error ep =>
    obtain ⟨e, l⟩ := ep
    have hp : ∀ op ∈ l, op = PageOp.pollWait :=
      settleGo_error_ops events failAt 151 0 [] (by intro op hop; cases hop) e l hs
    constructor
    · intro hok
      simp only [waitForNetworkSettlement, hs, Except.isOk, Except.toBool] at hok
      cases hok
    · intro msg _
      simp only [waitForNetworkSettlement, hs, listenersAfter]
      rw [List.foldl_append]
      rw [listenersFold_polls l hp]
      rfl

/-- C4 witness: the cleanup theorem applied to the settlement path (no
events, no failure) and to the first-poll failure path. -/
theorem C4_listener_cleanup_witness :
    listenersAfter (waitForNetworkSettlement [] none).2 = [] ∧
    listenersAfter (waitForNetworkSettlement [] (some 0)).2 =
      ["request", "response"] :=
  ⟨(C4_listener_cleanup [] none).1 rfl,
   (C4_listener_cleanup [] (some 0)).2 "waitForTimeout failed" rfl⟩

/-- C5 counterexample: two nonempty clauses joined by a bare comma
(`"wait, wait"`) parse to a single action, not two — the split regex
demands whitespace on both sides of every separator, including the
comma; moreover the worked example's navigate action carries its URL in
the `target` field, not in `value`. -/
theorem C5_counterexample :
    (parseFlowInstructions "wait, wait").length = 1 ∧
    ¬ (parseFlowInstructions "wait, wait").length = 2 ∧
    (parseFlowInstructions "navigate to example.com").map (fun a => a.value) =
      [none] := by
  refine ⟨rfl, ?_, rfl⟩
  intro hc
  rw [show (parseFlowInstructions "wait, wait").length = 1 from rfl] at hc
  cases hc

/-- C5 (amended): separators split clauses only when surrounded by
whitespace on both sides (a comma attached directly to the preceding
word does not separate); `parse` emits exactly one Action, in source
order, per nonempty trimmed clause of that split; the worked example
parses to a navigate action whose `target` field is
`https://example.com` (scheme prefixed) followed by a click action with
target `Login`, and a mixed-separator text with whitespace-surrounded
comma yields one action per clause in source order. -/
theorem C5_parse_clause_count :
    (∀ s : String, parseFlowInstructions s =
      (((splitSeparators s).map jsTrim).filter (fun t => t != "")).map classifyStep) ∧
    parseFlowInstructions "navigate to example.com then click Login" =
      [{ type := "navigate", target := some "https://example.com", value := none,
         description := "navigate to example.com" },
       { type := "click", target := some "Login", value := none,
         description := "click Login" }] ∧
    (parseFlowInstructions "go to a.com , click Login and then wait").map
        (fun a => a.type) = ["navigate", "click", "wait"] := by
  exact ⟨fun s => parseSteps_eq (splitSeparators s), rfl, rfl⟩

/-- C6: any plan containing an action with tag `unknown` makes
`validateFlowExecution` fail with an unrecognized-instruction error for
that action, regardless of the history. -/
theorem C6_unknown_fails_validation (plan : List PlanAction)
    (history : List HistoryEntry) (pa : PlanAction) (hmem : pa ∈ plan)
    (hty : pa.type = "unknown") :
    (validateFlowExecution plan history).success = false ∧
    ("Unrecognized instruction: " ++ pa.description) ∈
      (validateFlowExecution plan history).errors := by
  have hm := valErrors_unknown_mem history pa hty plan hmem
  constructor
  · have hne : valErrors history plan ≠ [] := List.ne_nil_of_mem hm
    simp only [validateFlowExecution]
    cases hl : valErrors history plan with
    | nil => exact absurd hl hne
    | cons a rest => simp [hl]
  · simpa [validateFlowExecution] using hm

/-- C6 witness: a one-action unknown plan against an empty history. -/
theorem C6_unknown_fails_validation_witness :
    (validateFlowExecution
        [{ type := "unknown", description := "frobnicate the widget" }] []).success =
      false ∧
    ("Unrecognized instruction: " ++ "frobnicate the widget") ∈
      (validateFlowExecution
        [{ type := "unknown", description := "frobnicate the widget" }] []).errors :=
  C6_unknown_fails_validation _ [] _ (List.mem_singleton_self _) rfl

/-- C8: whenever the page holds a button whose accessible name matches
`Submit` case-insensitively, `locateElement` on target `Submit` resolves
to an element of role `button` — the role-button strategy precedes the
role-link strategy, so a link can never win. -/
theorem C8_button_precedes_link (p : Page)
    (h : ∃ e ∈ p.elements, e.role = "button" ∧
      ciSubstr "Submit".data e.name.data = true) :
    ∃ e, locateElement p "Submit" = Except.ok e ∧ e.role = "button" := by
  obtain ⟨e0, he0, hrole0, hname0⟩ := h
  obtain ⟨y, hy, hpy⟩ := filter_head_spec p.elements
      (fun e => e.role == "button" && ciSubstr "Submit".data e.name.data)
      ⟨e0, he0, by simp [hrole0, hname0]⟩
  have hyrole : y.role = "button" := by
    rw [Bool.and_eq_true] at hpy
    simpa using hpy.1
  refine ⟨y, ?_, hyrole⟩
  simp only [locateElement, locateFound, stratByRole,
    show jsTrim "Submit" = "Submit" from rfl,
    show stratCss p "Submit" = none from rfl, hy]

/-- C8 witness: a page listing a link named `Submit form` before a
button named `Submit` still resolves to the button. -/
theorem C8_button_precedes_link_witness :
    ∃ e, locateElement pageSubmit "Submit" = Except.ok e ∧ e.role = "button" :=
  C8_button_precedes_link pageSubmit
    ⟨{ role := "button", name := "Submit" }, by decide, rfl, rfl⟩

set_option maxRecDepth 4096 in
/-- C9 counterexample: the exhaustion diagnostic enumerates six strategy
descriptions, not eight — the literal structural-selector strategy is
not named, and exact-text versus partial-text matching are merged into
the single `Element with text matching` entry. -/
theorem C9_counterexample :
    locateElement pageEmpty "zzz" =
      Except.error "Could not locate element: \"zzz\"\nTried multiple strategies:\n  - Button with name matching \"zzz\"\n  - Link with name matching \"zzz\"\n  - Input with label matching \"zzz\"\n  - Input with placeholder matching \"zzz\"\n  - Element with text matching \"zzz\"\n  - Heading with text matching \"zzz\"\n\nPlease verify the element exists and is visible on the page." ∧
    strategyLineCount (locateErrorMessage "zzz") = 6 ∧ (6 : Nat) ≠ 8 := by
  exact ⟨rfl, rfl, by decide⟩

/-- C9 (amended): for every page and target on which all eight locator
strategies fail, `locateElement` fails with the fixed diagnostic
message, which names the original target and enumerates six strategy
descriptions in strategy order (button, link, label, placeholder, text,
heading), omitting the structural-selector strategy and not
distinguishing exact-text from partial-text matching. -/
theorem C9_exhaustion_message (p : Page) (target : String)
    (h0 : stratCss p (jsTrim target) = none)
    (h1 : stratByRole "button" p (jsTrim target) = none)
    (h2 : stratByRole "link" p (jsTrim target) = none)
    (h3 : stratByLabel p (jsTrim target) = none)
    (h4 : stratByPlaceholder p (jsTrim target) = none)
    (h5 : stratByExactText p (jsTrim target) = none)
    (h6 : stratByPartialText p (jsTrim target) = none)
    (h7 : stratByRole "heading" p (jsTrim target) = none) :
    locateElement p target = Except.error (locateErrorMessage target) := by
  simp only [locateElement, locateFound, h0, h1, h2, h3, h4, h5, h6, h7]

set_option maxRecDepth 4096 in
/-- C9 witness: the exhaustion theorem applied to an empty page and the
target `zzz`, whose message carries six strategy bullets. -/
theorem C9_exhaustion_message_witness :
    locateElement pageEmpty "zzz" = Except.error (locateErrorMessage "zzz") :=
  C9_exhaustion_message pageEmpty "zzz" rfl rfl rfl rfl rfl rfl rfl rfl

/-- C10: the validator is insensitive to history order and multiplicity:
its result is unchanged under any permutation of the history and under
duplication of an entry, and a single wait entry satisfies a plan of
three waits. -/
theorem C10_history_insensitive :
    (∀ (plan : List PlanAction) (h h' : List HistoryEntry), h.Perm h' →
      validateFlowExecution plan h = validateFlowExecution plan h') ∧
    (∀ (plan : List PlanAction) (e : HistoryEntry) (h : List HistoryEntry),
      validateFlowExecution plan (e :: e :: h) = validateFlowExecution plan (e :: h)) ∧
    (validateFlowExecution
        (List.replicate 3 { type := "wait", description := "wait" })
        [{ step := 1, action := "wait" }]).success = true := by
  refine ⟨?_, ?_, by decide⟩
  · intro plan h h' hp
    simp [validateFlowExecution, valErrors_perm plan hp]
  · intro plan e h
    have hany : ∀ q : PlanAction,
        (e :: e :: h).any (matchesPlanned q) = (e :: h).any (matchesPlanned q) := by
      intro q
      cases hq : matchesPlanned q e <;> simp [List.any_cons, hq]
    have h2 : valErrors (e :: e :: h) plan = valErrors (e :: h) plan := by
      induction plan with
      | nil => rfl
      | cons q rest ih => simp [valErrors, hany q, ih]
    simp [validateFlowExecution, h2]

/-- C10 witness: the permutation part applied to a concrete two-entry
swap. -/
theorem C10_history_insensitive_witness :
    validateFlowExecution []
        [{ step := 1, action := "wait" }, { step := 2, action := "back" }] =
      validateFlowExecution []
        [{ step := 2, action := "back" }, { step := 1, action := "wait" }] :=
  C10_history_insensitive.1 [] _ _ (List.Perm.swap _ _ _)

/-- With the wait-until-49 decision function, the agent loop runs from
any state with `fuel + sc = 50` and `h.length = sc` to a normal exit
whose step counter is exactly 50. -/
theorem agentFlowLoop_decide49 (p : Page) (flow : String) :
    ∀ (fuel sc : Nat) (h : List HistoryEntry), fuel + sc = 50 → h.length = sc →
      ∃ h', agentFlowLoop p flow decide49 fuel sc h = Except.ok (50, h') := by
  intro fuel
  induction fuel with
  | zero =>
    intro sc h hf hl
    have hsc : sc = 50 := by omega
    subst hsc
    exact ⟨h, by rw [agentFlowLoop]⟩
  | succ n ih =>
    intro sc h hf hl
    by_cases hd : 49 ≤ h.length
    · have hsc : sc = 49 := by omega
      subst hsc
      refine ⟨h, ?_⟩
      rw [agentFlowLoop]
      simp [decide49, hd]
    · obtain ⟨h', hrec⟩ := ih (sc + 1)
        (h ++ [agentEntry (sc + 1) p.url { action := "wait" }])
        (by omega) (by simp [hl])
      refine ⟨h', ?_⟩
      rw [agentFlowLoop]
      simp only [decide49, if_neg hd]
      simp only [agentExecuteStep]
      simpa using hrec

/-- C7: a decision function that legitimately completes on exactly the
50th loop iteration — 49 successfully executed waits, then `done` — does
not get a successful FlowResult: the step counter is incremented before
the done check and the post-loop test compares it against the ceiling,
so the flow fails with the exceeded-maximum-steps error. -/
theorem C7_done_on_50th_throws (p : Page) (flow : String) :
    agentExecuteFlow p flow decide49 =
      Except.error "Flow exceeded maximum steps (50). Possible infinite loop." := by
  obtain ⟨h', hl⟩ := agentFlowLoop_decide49 p flow 50 0 [] rfl rfl
  simp [agentExecuteFlow, hl]

/-- C1 counterexample: on a page where clicking `X` succeeds, the
decision sequence `[wait, click("X"), done]` yields `steps = 3` with a
history of length 2 — the returned pair is not the claimed `(2, 2)`,
because the counter also counts the iteration that received `done`. -/
theorem C1_counterexample :
    (agentExecuteFlow pageX "f" decideWCD).toOption.map
        (fun r => (r.steps, r.history.length)) = some (3, 2) ∧
    ((3 : Nat), (2 : Nat)) ≠ ((2 : Nat), (2 : Nat)) := by
  exact ⟨rfl, by decide⟩

/-- C1 (amended): for every flow text and every page on which locating
`X` succeeds, the agent-guided flow driven by the decision sequence
`[wait, click("X"), done]` returns a FlowResult with `steps = 3` — the
loop counter also counts the iteration that received `done` — and a
history of length 2. -/
theorem C1_agent_steps_count (p : Page) (flow : String)
    (h : ∃ el, locateElement p "X" = Except.ok el) :
    ∃ r, agentExecuteFlow p flow decideWCD = Except.ok r ∧
      r.steps = 3 ∧ r.history.length = 2 := by
  obtain ⟨el, he⟩ := h
  have hstep : agentExecuteStep p { action := "click", target := some "X" } =
      Except.ok [Effect.interact el "click" none] := by
    simp [agentExecuteStep, targetedStep, executeAction, strTruthy, he]
  have l3 : agentFlowLoop p flow decideWCD 48 2
      [agentEntry 1 p.url { action := "wait" },
       agentEntry 2 p.url { action := "click", target := some "X" }] =
      Except.ok (3,
        [agentEntry 1 p.url { action := "wait" },
         agentEntry 2 p.url { action := "click", target := some "X" }]) := by
    rw [agentFlowLoop]
    simp [decideWCD]
  have l2 : agentFlowLoop p flow decideWCD 49 1
      [agentEntry 1 p.url { action := "wait" }] =
      Except.ok (3,
        [agentEntry 1 p.url { action := "wait" },
         agentEntry 2 p.url { action := "click", target := some "X" }]) := by
    rw [agentFlowLoop]
    simp only [decideWCD, List.length_cons, List.length_nil]
    norm_num
    rw [hstep]
    simpa using l3
  have l1 : agentFlowLoop p flow decideWCD 50 0 [] =
      Except.ok (3,
        [agentEntry 1 p.url { action := "wait" },
         agentEntry 2 p.url { action := "click", target := some "X" }]) := by
    rw [agentFlowLoop]
    simp only [decideWCD, List.length_nil]
    norm_num
    simp only [agentExecuteStep]
    norm_num
    simpa using l2
  refine ⟨{ success := true, steps := 3, duration := 0,
            history := [agentEntry 1 p.url { action := "wait" },
                        agentEntry 2 p.url { action := "click", target := some "X" }] },
    ?_, rfl, rfl⟩
  simp [agentExecuteFlow, l1]

/-- C1 witness: the amended theorem applied to the one-button page. -/
theorem C1_agent_steps_count_witness :
    ∃ r, agentExecuteFlow pageX "f" decideWCD = Except.ok r ∧
      r.steps = 3 ∧ r.history.length = 2 :=
  C1_agent_steps_count pageX "f" ⟨{ role := "button", name := "X" }, rfl⟩

/-- The deterministic loop's final history is the input history followed
by one `detEntry` per plan step, in order. -/
theorem detFlowLoop_history (p : Page) :
    ∀ (plan : List Decision) (sc : Nat) (h : List HistoryEntry)
      (res : Nat × List HistoryEntry),
      detFlowLoop p plan sc h = Except.ok res →
        res.2 = h ++ detHistoryFrom sc plan := by
  intro plan
  induction plan with
  | nil =>
    intro sc h res hres
    rw [detFlowLoop] at hres
    cases hres
    simp [detHistoryFrom]
  | cons st rest ih =>
    intro sc h res hres
    rw [detFlowLoop] at hres
    cases hst : detExecuteStep p st with
    | error e => rw [hst] at hres; cases hres
    | ok eff =>
      rw [hst] at hres
      have hr := ih (sc + 1) (h ++ [detEntry sc st]) res hres
      simp [detHistoryFrom, hr]

/-- Every history entry the agent loop appends has a masked or absent
value; the invariant is preserved from the input history to the
result. -/
theorem agentFlowLoop_masked (p : Page) (flow : String) (dec : DecideFn) :
    ∀ (fuel sc : Nat) (h : List HistoryEntry),
      (∀ e ∈ h, e.value = none ∨ e.value = some "***") →
      ∀ res, agentFlowLoop p flow dec fuel sc h = Except.ok res →
        ∀ e ∈ res.2, e.value = none ∨ e.value = some "***" := by
  intro fuel
  induction fuel with
  | zero =>
    intro sc h hh res hres
    rw [agentFlowLoop] at hres
    cases hres
    exact hh
  | succ n ih =>
    intro sc h hh res hres
    rw [agentFlowLoop] at hres
    split at hres
    · cases hres
      exact hh
    · split at hres
      · cases hres
      · refine ih (sc + 1) _ ?_ res hres
        intro e hmem
        rcases List.mem_append.mp hmem with hm | hm
        · exact hh e hm
        · have he : e = agentEntry (sc + 1) p.url (dec p.snapshot flow h) := by
            simpa using hm
          subst he
          by_cases hv : strTruthy (dec p.snapshot flow h).value = true
          · right; simp [agentEntry, hv]
          · left; simp [agentEntry, Bool.of_not_eq_true hv]

/-- C3 counterexample: in agent mode a `navigate` decision carrying a
URL value is recorded with the masked placeholder even though its action
is not `fill`. -/
theorem C3_counterexample :
    (agentExecuteFlow pageEmpty "f" decideNav).toOption.map
        (fun r => r.history.map (fun e => (e.action, e.value))) =
      some [("navigate", some "***")] ∧
    ("navigate" : String) ≠ "fill" := by
  exact ⟨rfl, by decide⟩

/-- C3 (amended): masking is mode-specific.  In deterministic mode the
history is exactly one `detEntry` per plan step — the value is masked
precisely when the action is `fill`, and every other action records the
literal supplied value.  In agent mode every recorded value is either
absent or the masked placeholder, regardless of action: a placeholder
whenever any non-empty value was supplied, absent otherwise. -/
theorem C3_masking :
    (∀ (p : Page) (plan : List Decision) (r : FlowResult),
      detExecuteFlow p plan = Except.ok r → r.history = detHistoryFrom 0 plan) ∧
    (∀ (p : Page) (flow : String) (dec : DecideFn) (r : FlowResult),
      agentExecuteFlow p flow dec = Except.ok r →
        ∀ e ∈ r.history, e.value = none ∨ e.value = some "***") := by
  constructor
  · intro p plan r hr
    simp only [detExecuteFlow] at hr
    cases hl : detFlowLoop p plan 0 [] with
    | error e => rw [hl] at hr; cases hr
    | ok res =>
      rw [hl] at hr
      cases hr
      simpa using detFlowLoop_history p plan 0 [] res hl
  · intro p flow dec r hr
    simp only [agentExecuteFlow] at hr
    cases hl : agentFlowLoop p flow dec 50 0 [] with
    | error e => rw [hl] at hr; cases hr
    | ok res =>
      obtain ⟨sc, h⟩ := res
      rw [hl] at hr
      have hr' : (if 50 ≤ sc then
            (Except.error "Flow exceeded maximum steps (50). Possible infinite loop." :
              Except String FlowResult)
          else Except.ok { success := true, steps := sc, duration := 0, history := h }) =
          Except.ok r := hr
      by_cases hsc : 50 ≤ sc
      · rw [if_pos hsc] at hr'; cases hr'
      · rw [if_neg hsc] at hr'
        cases hr'
        exact agentFlowLoop_masked p flow dec 50 0 []
          (by intro e hmem; cases hmem) (sc, h) hl

/-- C3 witness: the deterministic characterization applied to a
fill-then-navigate plan (fill masked, navigate literal), and the agent
invariant applied to the navigate-then-done decision function. -/
theorem C3_masking_witness :
    resultFillNav.history = detHistoryFrom 0 planFillNav ∧
    (∀ e ∈ resultNavMasked.history, e.value = none ∨ e.value = some "***") :=
  ⟨C3_masking.1 pageX planFillNav resultFillNav rfl,
   C3_masking.2 pageEmpty "f" decideNav resultNavMasked rfl⟩
